import Mathlib

/-!
Verification of `lambda_function.py` (AWS cost / recommendation reporting Lambda)
against its natural-language specification.

The Python source is shallowly embedded below:
* Python floats are modelled as rationals (`ℚ`); Python ints as `Int`.
* Python dicts used as events are modelled as association lists
  (`Event := List (String × PyVal)`) with insertion-order semantics:
  assignment to an existing key updates in place, otherwise appends.
* Fallible code paths (`raise` / uncaught exceptions) are modelled with
  `Except`; external collaborators (Cost Explorer, Cost Optimization Hub,
  Bedrock, the network, `random.uniform`) are inputs to the model.
-/

/-- Model of a Python scalar value as found in the event dictionaries:
strings, floats (as `ℚ`), ints, booleans and `None`. -/
inductive PyVal where
  | str : String → PyVal
  | num : ℚ → PyVal
  | int : Int → PyVal
  | bool : Bool → PyVal
  | null : PyVal
deriving DecidableEq, Repr

/-- An event dictionary: ordered association list of field name to value.
Dict literals in the source build these with distinct keys; dynamic key
assignment goes through `dictSet`. -/
abbrev Event := List (String × PyVal)

/-- Python `d.get(k)` / `d[k]` on an event dict: value at the key if present. -/
def pyGet (k : String) : Event → Option PyVal
  | [] => none
  | kv :: rest => if kv.1 = k then some kv.2 else pyGet k rest

/-- Python `d[k] = v`: update in place if the key exists, else append. -/
def dictSet (e : Event) (k : String) (v : PyVal) : Event :=
  if e.any (fun kv => kv.1 = k) then
    e.map (fun kv => if kv.1 = k then (kv.1, v) else kv)
  else e ++ [(k, v)]

/-- Python `d.update(kvs)`: successive `dictSet`s in order. -/
def dictUpdate (e : Event) (kvs : List (String × PyVal)) : Event :=
  kvs.foldl (fun acc kv => dictSet acc kv.1 kv.2) e

theorem pyGet_map_set (tl : Event) (k t : String) (v : PyVal) (h : k ≠ t) :
    pyGet t (tl.map (fun kv => if kv.1 = k then (kv.1, v) else kv)) = pyGet t tl := by
  induction tl with
  | nil => rfl
  | cons hd tl ih =>
    by_cases hk : hd.1 = k
    · have ht : ¬hd.1 = t := fun hh => h (hk ▸ hh)
      simp only [List.map_cons, if_pos hk, pyGet, if_neg ht]
      exact ih
    · simp only [List.map_cons, if_neg hk, pyGet]
      by_cases ht : hd.1 = t
      · simp [ht]
      · simp only [if_neg ht]
        exact ih

theorem pyGet_append_single (e : Event) (k t : String) (v : PyVal) (h : k ≠ t) :
    pyGet t (e ++ [(k, v)]) = pyGet t e := by
  induction e with
  | nil => simp [pyGet, h]
  | cons hd tl ih =>
    simp only [List.cons_append, pyGet]
    by_cases ht : hd.1 = t
    · simp [ht]
    · simp only [if_neg ht]
      exact ih

theorem pyGet_dictSet_eq (e : Event) (k : String) (v : PyVal) :
    pyGet k (dictSet e k v) = some v := by
  unfold dictSet
  by_cases h : e.any (fun kv => kv.1 = k)
  · rw [if_pos h]
    induction e with
    | nil => simp at h
    | cons hd tl ih =>
      by_cases hk : hd.1 = k
      · simp [pyGet, hk]
      · simp only [List.any_cons, Bool.or_eq_true, decide_eq_true_eq] at h
        rcases h with h | h
        · exact absurd h hk
        · simp only [List.map_cons, if_neg hk, pyGet, hk, if_false]
          exact ih (by simpa using h)
  · rw [if_neg h]
    induction e with
    | nil => simp [pyGet]
    | cons hd tl ih =>
      simp only [List.any_cons, Bool.or_eq_true, decide_eq_true_eq, not_or] at h
      simp only [List.cons_append, pyGet, if_neg h.1]
      exact ih (by simpa using h.2)

theorem pyGet_dictSet_ne (e : Event) (k t : String) (v : PyVal) (h : k ≠ t) :
    pyGet t (dictSet e k v) = pyGet t e := by
  unfold dictSet
  by_cases ha : e.any (fun kv => kv.1 = k)
  · rw [if_pos ha]
    exact pyGet_map_set e k t v h
  · rw [if_neg ha]
    exact pyGet_append_single e k t v h

theorem pyGet_dictUpdate_ne (e : Event) (kvs : List (String × PyVal)) (t : String)
    (h : ∀ kv ∈ kvs, kv.1 ≠ t) : pyGet t (dictUpdate e kvs) = pyGet t e := by
  induction kvs generalizing e with
  | nil => rfl
  | cons hd tl ih =>
    simp only [dictUpdate, List.foldl_cons]
    rw [show List.foldl (fun acc kv => dictSet acc kv.1 kv.2) (dictSet e hd.1 hd.2) tl
          = dictUpdate (dictSet e hd.1 hd.2) tl from rfl]
    rw [ih (dictSet e hd.1 hd.2) (fun kv hkv => h kv (List.mem_cons_of_mem hd hkv))]
    exact pyGet_dictSet_ne e hd.1 t hd.2 (h hd (List.mem_cons_self hd tl))

/-- Helper for key-disjointness: a string built by prepending a non-empty
prefix cannot equal a string whose first character differs from the
prefix's first character. -/
theorem append_ne_of_head (p k t : String) (c : Char)
    (hp : p.data.head? = some c) (ht : t.data.head? ≠ some c) : p ++ k ≠ t := by
  intro he
  apply ht
  rw [← he, String.data_append, List.head?_append, hp]
  rfl

-- =================================================================
-- Dates: `datetime.date` with the Gregorian proleptic calendar, as
-- used by `datetime`, `timedelta(days=1)` and `calendar.monthrange`.
-- =================================================================

/-- Model of `datetime.date`. -/
structure Date where
  year : Int
  month : Nat
  day : Nat
deriving DecidableEq, Repr

/-- Gregorian leap-year rule (as implemented by `calendar.isleap`). -/
def isLeap (y : Int) : Bool := y % 4 = 0 ∧ (y % 100 ≠ 0 ∨ y % 400 = 0)

/-- Number of days in a month (`calendar.monthrange(y, m)[1]`). -/
def daysInMonth (y : Int) (m : Nat) : Nat :=
  if m = 2 then (if isLeap y then 29 else 28)
  else if m = 4 ∨ m = 6 ∨ m = 9 ∨ m = 11 then 30
  else 31

/-- A well-formed `datetime.date`. -/
def validDate (d : Date) : Prop :=
  1 ≤ d.month ∧ d.month ≤ 12 ∧ 1 ≤ d.day ∧ d.day ≤ daysInMonth d.year d.month

instance (d : Date) : Decidable (validDate d) := by unfold validDate; infer_instance

/-- Python `d.replace(day=n)`. -/
def replaceDay (d : Date) (n : Nat) : Date := { d with day := n }

/-- Python `d - timedelta(days=1)` on a valid date. -/
def prevDay (d : Date) : Date :=
  if 1 < d.day then { d with day := d.day - 1 }
  else if 1 < d.month then ⟨d.year, d.month - 1, daysInMonth d.year (d.month - 1)⟩
  else ⟨d.year - 1, 12, 31⟩

/-- Left-pad a numeral string with zeroes to the given width. -/
def padZero (w : Nat) (s : String) : String :=
  String.mk (List.replicate (w - s.length) '0') ++ s

/-- Python `date.isoformat()`: `YYYY-MM-DD`. -/
def isoformat (d : Date) : String :=
  padZero 4 (toString d.year) ++ "-" ++ padZero 2 (toString d.month) ++ "-" ++
    padZero 2 (toString d.day)

-- =================================================================
-- Reporting-window computation of `run_cost_explorer_workflow`
-- (lambda_function.py lines 61-74).
-- =================================================================

/-- The monthly reporting window `(start_date, end_date_for_api)` computed by
`run_cost_explorer_workflow` from `today = datetime.utcnow().date()`:
on the 1st, `end_date_for_api = today.replace(day=1)`,
`last_month_end = end_date_for_api - timedelta(days=1)`,
`start_date = last_month_end.replace(day=1)`; otherwise
`start_date = today.replace(day=1)`, `end_date_for_api = today`. -/
def computeWindow (today : Date) : Date × Date :=
  if today.day = 1 then
    let endDateForApi := replaceDay today 1
    let lastMonthEnd := prevDay endDateForApi
    (replaceDay lastMonthEnd 1, endDateForApi)
  else
    (replaceDay today 1, today)

/-- The forecast call is guarded by `if not is_first_of_month` where
`is_first_of_month = (today.day == 1)`. -/
def forecastAttempted (today : Date) : Bool := !(today.day == 1)

/-- Modelled from the spec: the first day of the month of `d`. -/
def firstOfMonth (d : Date) : Date := ⟨d.year, d.month, 1⟩

/-- Modelled from the spec: the first day of the month preceding `d`'s month. -/
def firstOfPrevMonth (d : Date) : Date :=
  if d.month = 1 then ⟨d.year - 1, 12, 1⟩ else ⟨d.year, d.month - 1, 1⟩

/-- C1: on the 1st of a month the reporting window is the whole previous
calendar month (start = first day of previous month, exclusive API end =
first day of the current month); on any other day it is the current month
to date (start = first day of the current month, exclusive API end =
today). The monthly forecast call is attempted iff the day is not the 1st. -/
theorem costWindow_correct (d : Date) (hv : validDate d) :
    (d.day = 1 → computeWindow d = (firstOfPrevMonth d, firstOfMonth d)) ∧
    (d.day ≠ 1 → computeWindow d = (firstOfMonth d, d)) ∧
    (forecastAttempted d = true ↔ d.day ≠ 1) := by
  obtain ⟨hm1, hm12, _, _⟩ := hv
  refine ⟨?_, ?_, ?_⟩
  · intro h1
    unfold computeWindow replaceDay prevDay firstOfPrevMonth firstOfMonth
    by_cases hm : d.month = 1
    · simp [h1, hm]
    · have hlt : 1 < d.month := lt_of_le_of_ne hm1 (Ne.symm hm)
      simp [h1, hm, hlt]
  · intro h1
    unfold computeWindow replaceDay firstOfMonth
    simp [h1]
  · unfold forecastAttempted
    simp

/-- Concrete instantiation of `costWindow_correct` at 2025-08-01 and
2025-08-15. -/
theorem costWindow_correct_witness :
    computeWindow ⟨2025, 8, 1⟩ = (⟨2025, 7, 1⟩, ⟨2025, 8, 1⟩) ∧
    computeWindow ⟨2025, 8, 15⟩ = (⟨2025, 8, 1⟩, ⟨2025, 8, 15⟩) ∧
    forecastAttempted ⟨2025, 8, 1⟩ = false := by
  refine ⟨?_, ?_, by decide⟩
  · have h := (costWindow_correct ⟨2025, 8, 1⟩ (by decide)).1 rfl
    rw [h]
    decide
  · have h := (costWindow_correct ⟨2025, 8, 15⟩ (by decide)).2.1 (by decide)
    rw [h]
    decide

-- =================================================================
-- `send_to_new_relic` (lambda_function.py lines 320-343): bounded
-- retry with exponential backoff and jitter.
-- =================================================================

/-- Outcome of one delivery attempt as observed by the `try` block:
either a transport-level exception or an HTTP response status. -/
inductive SendOutcome where
  | transportError : SendOutcome
  | status : Nat → SendOutcome
deriving DecidableEq, Repr

/-- The success test `200 <= response.status < 300`. -/
def attemptSucceeds (o : SendOutcome) : Bool :=
  match o with
  | .transportError => false
  | .status n => 200 ≤ n ∧ n < 300

/-- Observable trace of `send_to_new_relic`: whether it returned normally
(`delivered = true`) or raised after exhausting retries, how many POST
attempts were made, and the sequence of `time.sleep` durations (in seconds,
as exact rationals). -/
structure SendTrace where
  delivered : Bool
  attempts : Nat
  waits : List ℚ
deriving DecidableEq, Repr

/-- The `for attempt in range(3)` loop: on success return immediately;
otherwise sleep `(1 * 2 ** attempt) + random.uniform(0, 1)` and continue;
when the loop ends without a success, raise (`delivered = false`). -/
def sendLoop (outcome : Nat → SendOutcome) (jitter : Nat → ℚ) :
    List Nat → Nat → List ℚ → SendTrace
  | [], made, ws => ⟨false, made, ws⟩
  | a :: rest, made, ws =>
    if attemptSucceeds (outcome a) then ⟨true, made + 1, ws⟩
    else sendLoop outcome jitter rest (made + 1) (ws ++ [2 ^ a + jitter a])

/-- Model of `send_to_new_relic`: the event list is only inspected for
emptiness (early return without any attempt); the network's behaviour on
attempt `i` is the input `outcome i`, and the value drawn by
`random.uniform(0, 1)` on attempt `i` is the input `jitter i`. -/
def send_to_new_relic (events : List Event) (outcome : Nat → SendOutcome)
    (jitter : Nat → ℚ) : SendTrace :=
  if events.isEmpty then ⟨true, 0, []⟩
  else sendLoop outcome jitter [0, 1, 2] 0 []

/-- C2: for a non-empty event list at most 3 POST attempts are made; the
function returns successfully iff one of the first three attempts has a
status in `[200, 300)`, and after the first such attempt no further attempt
is made; every failed attempt `i` is followed by a wait of `2 ^ i` seconds
plus the jitter drawn on that attempt (with jitter in `[0, 1)`, so baseline
waits 1s, 2s, 4s); after the 3rd failed attempt the function raises. -/
theorem send_retry_policy (events : List Event) (outcome : Nat → SendOutcome)
    (jitter : Nat → ℚ) (hne : events ≠ [])
    (hj : ∀ i, 0 ≤ jitter i ∧ jitter i < 1) :
    (send_to_new_relic events outcome jitter).attempts ≤ 3 ∧
    ((send_to_new_relic events outcome jitter).delivered = true ↔
      ∃ i < 3, attemptSucceeds (outcome i) = true) ∧
    (∀ i < 3, attemptSucceeds (outcome i) = true →
      (∀ j < i, attemptSucceeds (outcome j) = false) →
      (send_to_new_relic events outcome jitter).delivered = true ∧
      (send_to_new_relic events outcome jitter).attempts = i + 1 ∧
      (send_to_new_relic events outcome jitter).waits =
        (List.range i).map (fun j => 2 ^ j + jitter j)) ∧
    ((∀ i < 3, attemptSucceeds (outcome i) = false) →
      (send_to_new_relic events outcome jitter).delivered = false ∧
      (send_to_new_relic events outcome jitter).attempts = 3 ∧
      (send_to_new_relic events outcome jitter).waits =
        (List.range 3).map (fun j => 2 ^ j + jitter j)) ∧
    (∀ j : Nat, j < (send_to_new_relic events outcome jitter).waits.length →
      2 ^ j ≤ ((send_to_new_relic events outcome jitter).waits.getD j 0) ∧
      ((send_to_new_relic events outcome jitter).waits.getD j 0) < 2 ^ j + 1) := by
  have hev : events.isEmpty = false := by
    cases events with
    | nil => exact absurd rfl hne
    | cons a l => rfl
  by_cases h0 : attemptSucceeds (outcome 0) = true
  · have heq : send_to_new_relic events outcome jitter = ⟨true, 1, []⟩ := by
      simp [send_to_new_relic, hev, sendLoop, h0]
    rw [heq]
    refine ⟨by dsimp only; omega, ⟨fun _ => ⟨0, by omega, h0⟩, fun _ => rfl⟩, ?_, ?_, ?_⟩
    · intro i hi hs hmin
      cases i with
      | zero => exact ⟨rfl, rfl, by simp⟩
      | succ n => rw [hmin 0 (Nat.succ_pos n)] at h0; exact absurd h0 (by simp)
    · intro hall
      rw [hall 0 (by omega)] at h0
      exact absurd h0 (by simp)
    · intro j hw
      simp at hw
  · by_cases h1 : attemptSucceeds (outcome 1) = true
    · have heq : send_to_new_relic events outcome jitter
          = ⟨true, 2, [2 ^ 0 + jitter 0]⟩ := by
        simp [send_to_new_relic, hev, sendLoop, h0, h1]
      rw [heq]
      refine ⟨by dsimp only; omega, ⟨fun _ => ⟨1, by omega, h1⟩, fun _ => rfl⟩, ?_, ?_, ?_⟩
      · intro i hi hs hmin
        interval_cases i
        · exact absurd hs h0
        · exact ⟨rfl, rfl, by simp [List.range_succ]⟩
        · rw [hmin 1 (by omega)] at h1
          exact absurd h1 (by simp)
      · intro hall
        rw [hall 1 (by omega)] at h1
        exact absurd h1 (by simp)
      · intro j hw
        simp only [List.length_cons, List.length_nil] at hw
        interval_cases j
        · have hj0 := hj 0
          simp only [List.getD, List.get?, pow_zero]
          constructor
          · simp
            linarith [hj0.1]
          · simp
            linarith [hj0.2]
    · by_cases h2 : attemptSucceeds (outcome 2) = true
      · have heq : send_to_new_relic events outcome jitter
            = ⟨true, 3, [2 ^ 0 + jitter 0, 2 ^ 1 + jitter 1]⟩ := by
          simp [send_to_new_relic, hev, sendLoop, h0, h1, h2]
        rw [heq]
        refine ⟨by dsimp only; omega, ⟨fun _ => ⟨2, by omega, h2⟩, fun _ => rfl⟩, ?_, ?_, ?_⟩
        · intro i hi hs hmin
          interval_cases i
          · exact absurd hs h0
          · exact absurd hs h1
          · exact ⟨rfl, rfl, by simp [List.range_succ]⟩
        · intro hall
          rw [hall 2 (by omega)] at h2
          exact absurd h2 (by simp)
        · intro j hw
          simp only [List.length_cons, List.length_nil] at hw
          interval_cases j
          · have hj0 := hj 0
            constructor
            · simp
              linarith [hj0.1]
            · simp
              linarith [hj0.2]
          · have hj1 := hj 1
            constructor
            · simp
              linarith [hj1.1]
            · simp
              linarith [hj1.2]
      · have heq : send_to_new_relic events outcome jitter
            = ⟨false, 3, [2 ^ 0 + jitter 0, 2 ^ 1 + jitter 1, 2 ^ 2 + jitter 2]⟩ := by
          simp [send_to_new_relic, hev, sendLoop, h0, h1, h2]
        rw [heq]
        refine ⟨by dsimp only; omega, ?_, ?_, ?_, ?_⟩
        · constructor
          · intro h
            simp at h
          · rintro ⟨i, hi, hs⟩
            interval_cases i
            · exact absurd hs h0
            · exact absurd hs h1
            · exact absurd hs h2
        · intro i hi hs _
          interval_cases i
          · exact absurd hs h0
          · exact absurd hs h1
          · exact absurd hs h2
        · intro _
          refine ⟨rfl, rfl, by simp [List.range_succ]⟩
        · intro j hw
          simp only [List.length_cons, List.length_nil] at hw
          interval_cases j
          · have hj0 := hj 0
            constructor
            · simp
              linarith [hj0.1]
            · simp
              linarith [hj0.2]
          · have hj1 := hj 1
            constructor
            · simp
              linarith [hj1.1]
            · simp
              linarith [hj1.2]
          · have hj2 := hj 2
            constructor
            · simp
              linarith [hj2.1]
            · simp
              linarith [hj2.2]

/-- Concrete instantiation of `send_retry_policy`: one event, first two
attempts fail with status 500, third succeeds with 204, zero jitter. -/
theorem send_retry_policy_witness :
    (send_to_new_relic [[("eventType", PyVal.str "AwsCostReport")]]
      (fun i => if i = 2 then .status 204 else .status 500) (fun _ => 0)).attempts ≤ 3 ∧
    ((send_to_new_relic [[("eventType", PyVal.str "AwsCostReport")]]
      (fun i => if i = 2 then .status 204 else .status 500) (fun _ => 0)).delivered = true ↔
      ∃ i < 3, attemptSucceeds
        ((fun i => if i = 2 then SendOutcome.status 204 else SendOutcome.status 500) i) = true) := by
  have h := send_retry_policy
    [[("eventType", PyVal.str "AwsCostReport")]]
    (fun i => if i = 2 then .status 204 else .status 500) (fun _ => 0)
    (by simp) (fun i => by norm_num)
  exact ⟨h.1, h.2.1⟩

-- =================================================================
-- `lambda_handler` (lambda_function.py lines 348-374): per-workflow
-- failure isolation and final delivery.
-- =================================================================

/-- Observable outcome of a `lambda_handler` run that returned normally:
the `statusCode` of the returned dict, the total number of generated events
(reported in the body message), and, as instrumentation, the event list
handed to `send_to_new_relic` (`none` when the emitter was never invoked
because the combined list was empty or credentials were missing). -/
structure HandlerReturn where
  statusCode : Nat
  eventCount : Nat
  sent : Option (List Event)
deriving DecidableEq

/-- Model of `lambda_handler`. The two workflows and the emitter are
abstracted as inputs: `costResult` / `recResult` are what
`run_cost_explorer_workflow` / `run_recommendation_workflow` return or
raise, and `emitter l` is what `send_to_new_relic(l)` does (returns or
raises). `credsPresent` models `NEW_RELIC_LICENSE_KEY and
NEW_RELIC_ACCOUNT_ID` being set. An `Except.error` return is the handler
raising (the invocation's overall failure). -/
def lambda_handler (credsPresent : Bool)
    (costResult recResult : Except String (List Event))
    (emitter : List Event → Except String Unit) : Except String HandlerReturn :=
  if !credsPresent then .ok ⟨500, 0, none⟩
  else
    let costEvents := match costResult with | .ok evs => evs | .error _ => []
    let recEvents := match recResult with | .ok evs => evs | .error _ => []
    let allEvents := costEvents ++ recEvents
    if !allEvents.isEmpty then
      match emitter allEvents with
      | .error e => .error e
      | .ok _ => .ok ⟨200, allEvents.length, some allEvents⟩
    else .ok ⟨200, allEvents.length, none⟩

/-- C3: with credentials present, when exactly one of the two aggregation
workflows raises, the orchestrator catches the error, that workflow
contributes zero events, the other workflow's events are still handed to
the Event Emitter (when non-empty), and the handler returns statusCode 200
(given the emitter does not raise); when the emitter raises its fatal
delivery error on a non-empty combined list, that error propagates out of
the handler. -/
theorem handler_failure_isolation (emitter : List Event → Except String Unit) :
    (∀ (ce : String) (evs : List Event),
      (evs ≠ [] → emitter evs = .ok ()) →
      lambda_handler true (.error ce) (.ok evs) emitter
        = .ok ⟨200, evs.length, if evs.isEmpty then none else some evs⟩) ∧
    (∀ (ce : String) (evs : List Event),
      (evs ≠ [] → emitter evs = .ok ()) →
      lambda_handler true (.ok evs) (.error ce) emitter
        = .ok ⟨200, evs.length, if evs.isEmpty then none else some evs⟩) ∧
    (∀ (costResult recResult : Except String (List Event)) (e : String),
      let allEvents :=
        (match costResult with | .ok evs => evs | .error _ => []) ++
        (match recResult with | .ok evs => evs | .error _ => [])
      allEvents ≠ [] → emitter allEvents = .error e →
      lambda_handler true costResult recResult emitter = .error e) := by
  refine ⟨?_, ?_, ?_⟩
  · intro ce evs hsend
    unfold lambda_handler
    cases evs with
    | nil => rfl
    | cons a l =>
      have h := hsend (by simp)
      simp [h]
  · intro ce evs hsend
    unfold lambda_handler
    cases evs with
    | nil => rfl
    | cons a l =>
      have h := hsend (by simp)
      simp [h]
  · intro costResult recResult e allEvents hne hsend
    unfold lambda_handler
    have hie : allEvents.isEmpty = false := by
      cases hh : allEvents with
      | nil => exact absurd hh hne
      | cons a l => rfl
    simp only [Bool.not_true, if_neg]
    simp [← hie.symm]
    rw [show ((match costResult with | .ok evs => evs | .error _ => []) ++
        (match recResult with | .ok evs => evs | .error _ => [])) = allEvents from rfl]
    simp [hie, hsend]

/-- Concrete instantiation of `handler_failure_isolation`: the cost workflow
raises, the recommendation workflow yields one event, the emitter accepts
everything. -/
theorem handler_failure_isolation_witness :
    lambda_handler true (.error "boom")
      (.ok [[("recordType", PyVal.str "summary")]]) (fun _ => .ok ())
      = .ok ⟨200, 1, some [[("recordType", PyVal.str "summary")]]⟩ := by
  have h := (handler_failure_isolation (fun _ => .ok ())).1 "boom"
    [[("recordType", PyVal.str "summary")]] (fun _ => rfl)
  simpa using h

-- =================================================================
-- Helpers shared by both workflows: `to_camel_case`, Python `round`,
-- configuration, and the Bedrock narrative-enrichment adapter.
-- =================================================================

/-- Python `str.title()` restricted to ASCII letters: uppercase a letter
that does not follow a letter, lowercase a letter that does. -/
def pyTitleGo : Bool → List Char → List Char
  | _, [] => []
  | prevAlpha, c :: rest =>
    (if c.isAlpha then (if prevAlpha then c.toLower else c.toUpper) else c) ::
      pyTitleGo c.isAlpha rest

/-- Python `str.title()`. -/
def pyTitle (s : String) : String := String.mk (pyTitleGo false s.data)

/-- Python `str.lower()` (ASCII letters). -/
def pyLower (s : String) : String := String.mk (s.data.map Char.toLower)

/-- Python `s.split('_')`. -/
def splitUnderscore : List Char → List (List Char)
  | [] => [[]]
  | x :: xs =>
    match splitUnderscore xs with
    | [] => [[]]
    | h :: t => if x = '_' then [] :: h :: t else (x :: h) :: t

/-- Model of `to_camel_case` (lambda_function.py lines 38-41): lowercase,
split on underscores, first component verbatim, others title-cased. -/
def to_camel_case (snake : String) : String :=
  if snake = "" then ""
  else
    let components := (splitUnderscore (pyLower snake).data).map String.mk
    components.headD "" ++ String.join ((components.drop 1).map pyTitle)

/-- Python 3 `round(q)` (banker's rounding, ties to even). -/
def pyRound (q : ℚ) : Int :=
  let f := ⌊q⌋
  let r := q - f
  if r < 1 / 2 then f
  else if 1 / 2 < r then f + 1
  else if f % 2 = 0 then f else f + 1

/-- Environment-derived configuration used by the workflows. `tagKey`
is `none` when `GROUP_BY_TAG_KEY` is unset; Python truthiness also treats
the empty string as unset. -/
structure Config where
  targetRegion : String
  dimensionKey : String
  tagKey : Option String
  jpyRate : Int
deriving Repr

/-- Python truthiness of an optional string. -/
def truthyOpt : Option String → Bool
  | none => false
  | some s => s ≠ ""

/-- One element of the `Groups` arrays accumulated from
`get_cost_and_usage` pagination: its `Keys` list and its
`Metrics.UnblendedCost` amount (parsed by `float(...)`) and `Unit`.
Groups are assumed well-formed per the Cost Explorer response contract
(an `Amount` is always present and numeric). -/
structure CostGroup where
  keys : List String
  amount : ℚ
  unit : String
deriving DecidableEq, Repr

/-- The `top_5_groups` computation (lambda_function.py line 146):
`sorted(all_groups, key=amount, reverse=True)[:5]`. Python `sorted` is a
stable sort; with `reverse=True` elements with equal keys keep their
original relative order, which is exactly `List.mergeSort` with the
relation "my amount is at least yours". -/
def top_5_groups (groups : List CostGroup) : List CostGroup :=
  (groups.mergeSort (fun a b => b.amount ≤ a.amount)).take 5

/-- One entry of the `top_cost_drivers` list (lambda_function.py
lines 147-151). -/
structure CostDriver where
  group : List String
  cost_usd : ℚ
  cost_jpy : Int
deriving DecidableEq, Repr

/-- Driver record built from one group. -/
def mkDriver (rate : Int) (g : CostGroup) : CostDriver :=
  ⟨g.keys, g.amount, pyRound (g.amount * rate)⟩

/-- The `top_cost_drivers` list handed to the Bedrock prompt. -/
def top_cost_drivers (rate : Int) (groups : List CostGroup) : List CostDriver :=
  (top_5_groups groups).map (mkDriver rate)

-- =================================================================
-- Bedrock response handling: `raw_text[raw_text.find("{"):raw_text.rfind("}") + 1]`
-- then `json.loads`, then merging `analysis.<key>` fields.
-- =================================================================

/-- Index of the first occurrence of a character, if any. -/
def firstIdx (c : Char) : List Char → Option Nat
  | [] => none
  | x :: xs => if x = c then some 0 else (firstIdx c xs).map (· + 1)

/-- Python `s.find(c)`: first index or -1. -/
def pyFind (s : List Char) (c : Char) : Int :=
  match firstIdx c s with
  | some i => i
  | none => -1

/-- Python `s.rfind(c)`: last index or -1. -/
def pyRfind (s : List Char) (c : Char) : Int :=
  match firstIdx c s.reverse with
  | some i => (s.length : Int) - 1 - i
  | none => -1

/-- Normalize a Python slice bound to an index in `[0, n]`. -/
def pyNormIdx (n : Nat) (i : Int) : Nat :=
  if i < 0 then ((n : Int) + i).toNat else min i.toNat n

/-- Python `s[a:b]` on a string (as a character list). -/
def pySlice (s : List Char) (a b : Int) : List Char :=
  (s.take (pyNormIdx s.length b)).drop (pyNormIdx s.length a)

/-- The substring taken from the Bedrock response text:
`raw_text[raw_text.find("{"):raw_text.rfind("}") + 1]`. -/
def extractBraces (s : List Char) : List Char :=
  pySlice s (pyFind s '{') (pyRfind s '}' + 1)

/-- Python `json` whitespace. -/
def isJsonWs (c : Char) : Bool := c = ' ' ∨ c = '\t' ∨ c = '\n' ∨ c = '\r'

/-- Skip leading JSON whitespace. -/
def skipWs : List Char → List Char
  | [] => []
  | c :: rest => if isJsonWs c then skipWs rest else c :: rest

/-- Parse the body of a JSON string after the opening quote, returning the
decoded characters and the remaining input after the closing quote.
Supports the single-character escapes; `\u` escapes are outside the
modelled fragment and fail. -/
def parseStringBody : List Char → Option (List Char × List Char)
  | [] => none
  | c :: rest =>
    if c = '"' then some ([], rest)
    else if c = '\\' then
      match rest with
      | [] => none
      | e :: rest2 =>
        let dec : Option Char :=
          if e = '"' then some '"'
          else if e = '\\' then some '\\'
          else if e = '/' then some '/'
          else if e = 'n' then some '\n'
          else if e = 't' then some '\t'
          else if e = 'r' then some '\r'
          else if e = 'b' then some (Char.ofNat 8)
          else if e = 'f' then some (Char.ofNat 12)
          else none
        match dec with
        | none => none
        | some d => (parseStringBody rest2).map (fun p => (d :: p.1, p.2))
    else if c.toNat < 32 then none
    else (parseStringBody rest).map (fun p => (c :: p.1, p.2))

/-- Accumulate the numeric value of a digit run. -/
def digitsToNat (ds : List Char) : Nat :=
  ds.foldl (fun acc c => acc * 10 + (c.toNat - 48)) 0

/-- Parse a JSON natural-number token (no leading zeroes). -/
def parseNatTok : List Char → Option (Nat × List Char)
  | [] => none
  | c :: rest =>
    if c = '0' then some (0, rest)
    else if c.isDigit then
      let digs := rest.takeWhile Char.isDigit
      some (digitsToNat (c :: digs), rest.drop digs.length)
    else none

/-- Parse a JSON integer token. -/
def parseIntTok : List Char → Option (Int × List Char)
  | '-' :: rest => (parseNatTok rest).map (fun p => (-(p.1 : Int), p.2))
  | s => (parseNatTok s).map (fun p => ((p.1 : Int), p.2))

/-- Parse a JSON scalar value of the modelled fragment: string, integer,
`true`, `false`, `null`. Floats, nested arrays and nested objects are
outside the fragment and fail. -/
def parseValue : List Char → Option (PyVal × List Char)
  | '"' :: rest => (parseStringBody rest).map (fun p => (.str (String.mk p.1), p.2))
  | 't' :: 'r' :: 'u' :: 'e' :: r => some (.bool true, r)
  | 'f' :: 'a' :: 'l' :: 's' :: 'e' :: r => some (.bool false, r)
  | 'n' :: 'u' :: 'l' :: 'l' :: r => some (.null, r)
  | s => (parseIntTok s).map (fun p => (.int p.1, p.2))

/-- Parse the members of a JSON object, positioned at the first key's
opening quote; returns the key-value pairs and the input after the
closing brace. -/
def parseMembers : Nat → List Char → Option (List (String × PyVal) × List Char)
  | 0, _ => none
  | fuel + 1, s =>
    match s with
    | '"' :: rest =>
      match parseStringBody rest with
      | none => none
      | some (key, r1) =>
        match skipWs r1 with
        | ':' :: r3 =>
          match parseValue (skipWs r3) with
          | none => none
          | some (v, r4) =>
            match skipWs r4 with
            | ',' :: r6 =>
              match parseMembers fuel (skipWs r6) with
              | none => none
              | some (kvs, r7) => some ((String.mk key, v) :: kvs, r7)
            | '}' :: r6 => some ([(String.mk key, v)], r6)
            | _ => none
        | _ => none
    | _ => none

/-- Model of `json.loads` restricted to flat objects whose values are
strings, integers, booleans or `null` (the shape requested from the model
and the shape exercised by the spec's testable properties). Texts outside
this fragment are treated as parse failures; the calling code also treats
any successfully parsed non-object the same way, because `.items()` then
raises inside the same `try`. -/
def parseJsonObj (s : List Char) : Option (List (String × PyVal)) :=
  match skipWs s with
  | '{' :: rest =>
    match skipWs rest with
    | '}' :: r2 => if skipWs r2 = [] then some [] else none
    | r =>
      match parseMembers (s.length + 1) r with
      | none => none
      | some (kvs, rem) => if skipWs rem = [] then some kvs else none
  | _ => none

/-- What the Bedrock call produced, as observed by the `try` block: either
an exception before text extraction (`callError` with its `str(e)`), or the
`raw_text` string taken from the first content block. -/
inductive BedrockOutcome where
  | callError : String → BedrockOutcome
  | text : String → BedrockOutcome

/-- Stands for `str(e)` of the `json.JSONDecodeError` / `AttributeError`
raised when no JSON object can be parsed out of the response text; the
exact message content is not observable in the events' structure. -/
def jsonFailMsg : String := "Expecting value: line 1 column 1 (char 0)"

/-- Prefix each parsed key with `analysis.` as in
`{f'analysis.{k}': v for k, v in analysis_result.items()}`. -/
def analysisItems (kvs : List (String × PyVal)) : List (String × PyVal) :=
  kvs.map (fun kv => ("analysis." ++ kv.1, kv.2))

/-- The narrative-enrichment step shared by both workflows
(lambda_function.py lines 201-212 and 305-315): on success merge
`analysis.<key>` fields into the summary event; on any failure set a
single `analysis.error` field. Total by construction: the whole step is
wrapped in `try/except Exception`. -/
def enrichSummary (summary : Event) (b : BedrockOutcome) : Event :=
  match b with
  | .callError msg => dictSet summary "analysis.error" (.str msg)
  | .text t =>
    match parseJsonObj (extractBraces t.data) with
    | some kvs => dictUpdate summary (analysisItems kvs)
    | none => dictSet summary "analysis.error" (.str jsonFailMsg)

-- =================================================================
-- `run_cost_explorer_workflow` (lambda_function.py lines 49-218).
-- =================================================================

/-- The `event_detail` dict literal of the cost workflow
(lambda_function.py lines 119-125). -/
def costDetailBase (cfg : Config) (acct : String) (w : Date × Date)
    (g : CostGroup) : Event :=
  [("eventType", .str "AwsCostReport"), ("recordType", .str "detail"),
   ("aws.accountId", .str acct), ("aws.lambdaRegion", .str cfg.targetRegion),
   ("period.start", .str (isoformat w.1)), ("period.end", .str (isoformat w.2)),
   ("cost.unblended", .num g.amount), ("cost.currency", .str g.unit)]

/-- The positional `Keys`-to-field assignments of lines 126-135, as the
ordered list of dict assignments they perform: `key_index` starts at 0, the
dimension field consumes the first key when the dimension is configured and
present, the region field the next available key, and the tag field the one
after that when a tag key is configured (Python truthiness: an empty string
counts as unconfigured). -/
def costDetailExtras (cfg : Config) (keys : List String) : List (String × PyVal) :=
  let i1 : Nat := if cfg.dimensionKey ≠ "" ∧ 0 < keys.length then 1 else 0
  let i2 : Nat := if i1 < keys.length then i1 + 1 else i1
  (if cfg.dimensionKey ≠ "" ∧ 0 < keys.length then
     [("aws." ++ to_camel_case cfg.dimensionKey, PyVal.str (keys.getD 0 ""))]
   else []) ++
  (if i1 < keys.length then [("aws.region", PyVal.str (keys.getD i1 ""))] else []) ++
  (if truthyOpt cfg.tagKey = true ∧ i2 < keys.length then
     [("aws.tag." ++ ((cfg.tagKey.getD "").replace "$" "_").replace ":" "_",
       PyVal.str (keys.getD i2 ""))]
   else [])

/-- One detail record of the cost workflow. -/
def costDetailEvent (cfg : Config) (acct : String) (w : Date × Date)
    (g : CostGroup) : Event :=
  dictUpdate (costDetailBase cfg acct w g) (costDetailExtras cfg g.keys)

/-- The `summary_event` dict literal of the cost workflow
(lambda_function.py lines 138-144): note `cost.monthlyForecast` is an
unconditional member. -/
def costSummaryBase (cfg : Config) (acct : String) (w : Date × Date)
    (total forecastAmount : ℚ) : Event :=
  [("eventType", .str "AwsCostReport"), ("recordType", .str "summary"),
   ("aws.accountId", .str acct), ("aws.lambdaRegion", .str cfg.targetRegion),
   ("period.start", .str (isoformat w.1)), ("period.end", .str (isoformat w.2)),
   ("cost.totalUnblended", .num total), ("cost.monthlyForecast", .num forecastAmount)]

/-- Model of `run_cost_explorer_workflow`. Inputs from collaborators:
`allGroups` is the union of `Groups` accumulated over all pagination pages;
`forecastData` is the `ForecastResultsByTime` `MeanValue` list that
`get_cost_forecast` would return (empty when the call raises its
`DataUnavailableException`, which is caught and logged); `bedrock` is the
narrative collaborator's outcome. The `.error` result models the uncaught
`IndexError` at `cost_data.get('ResultsByTime', [{}])[0]` when there are
no groups (`'ResultsByTime'` maps to `[]`) but forecast data exists. -/
def run_cost_explorer_workflow (cfg : Config) (acct : String) (today : Date)
    (allGroups : List CostGroup) (forecastData : List ℚ)
    (bedrock : BedrockOutcome) : Except Unit (List Event) :=
  let fd := if today.day = 1 then [] else forecastData
  if allGroups.isEmpty ∧ fd.isEmpty then .ok []
  else if allGroups.isEmpty then .error ()
  else
    let w := computeWindow today
    let totalCost := (allGroups.map (fun g => g.amount)).sum
    let details := allGroups.map (costDetailEvent cfg acct w)
    let forecastAmount : ℚ := match fd with | [] => 0 | m :: _ => m
    let summary := enrichSummary
      (costSummaryBase cfg acct w totalCost forecastAmount) bedrock
    .ok (details ++ [summary])

-- =================================================================
-- `run_recommendation_workflow` (lambda_function.py lines 224-318).
-- =================================================================

/-- A numeric field of a recommendation record as handed to
`float(rec.get(key, 0))`: absent (defaulting to 0), present and parsable,
or present but unparsable (raising `ValueError`/`TypeError`). -/
inductive NumField where
  | missing : NumField
  | parsable : ℚ → NumField
  | unparsable : NumField
deriving DecidableEq, Repr

/-- Evaluation of `float(rec.get(key, 0))`: `none` means the coercion
raises. -/
def parseNum : NumField → Option ℚ
  | .missing => some 0
  | .parsable q => some q
  | .unparsable => none

/-- One record from `list_recommendations` pagination. String-valued
fields are modelled after their `str(rec.get(...))` coercions, which never
raise; `resourceType` already includes the `'Unknown'` default. -/
structure RecRecord where
  estimatedMonthlySavings : NumField
  estimatedSavingsPercentage : NumField
  resourceType : String
  region : String
  recommendationId : String
  resourceId : String
  resourceArn : String
  currentResourceSummary : String
  recommendedResourceSummary : String
  actionType : String
  implementationEffort : String
  source : String
deriving DecidableEq, Repr

/-- `recommendations_by_type[rt] = recommendations_by_type.get(rt, 0) + 1`:
increment in place, appending on first occurrence. -/
def bumpCount (m : List (String × Nat)) (k : String) : List (String × Nat) :=
  if m.any (fun kv => kv.1 = k) then
    m.map (fun kv => if kv.1 = k then (kv.1, kv.2 + 1) else kv)
  else m ++ [(k, 1)]

/-- The detail record of one recommendation (lambda_function.py
lines 247-255), given both successfully coerced numeric values. -/
def recDetailEvent (acct : String) (r : RecRecord) (savings pct : ℚ) : Event :=
  [("eventType", .str "AwsOptimizationReport"), ("recordType", .str "detail"),
   ("aws.accountId", .str acct), ("aws.region", .str r.region),
   ("aws.recommendationId", .str r.recommendationId),
   ("aws.currentResourceType", .str r.resourceType),
   ("aws.currentResourceId", .str r.resourceId),
   ("aws.currentResourceArn", .str r.resourceArn),
   ("aws.currentResourceSummary", .str r.currentResourceSummary),
   ("aws.recommendedResourceSummary", .str r.recommendedResourceSummary),
   ("aws.implementationActionType", .str r.actionType),
   ("aws.implementationEffort", .str r.implementationEffort),
   ("aws.analysisSource", .str r.source),
   ("cost.estimatedMonthlySavings", .num savings),
   ("cost.estimatedSavingsPercentage", .num pct)]

/-- Loop state of the recommendation `for` loop: running savings total,
per-type counts, and the detail events appended so far. (The parallel
`bedrock_recommendation_summary_list` only feeds the prompt and has no
observable effect on the emitted events, so it is not tracked.) -/
structure RecState where
  total : ℚ
  byType : List (String × Nat)
  events : List Event
deriving DecidableEq, Repr

/-- One iteration of the recommendation loop (lambda_function.py
lines 240-265). The statement order inside the `try` matters:
`total_savings` and the per-type count are updated before the detail
event's dict literal evaluates `float(rec.get('estimatedSavingsPercentage', 0))`,
so a record whose percentage is unparsable still contributes to both
before the `except` clause skips its detail event. -/
def processRec (acct : String) (st : RecState) (r : RecRecord) : RecState :=
  match parseNum r.estimatedMonthlySavings with
  | none => st
  | some savings =>
    let total := st.total + savings
    let byType := bumpCount st.byType r.resourceType
    match parseNum r.estimatedSavingsPercentage with
    | none => { st with total := total, byType := byType }
    | some pct =>
      ⟨total, byType, st.events ++ [recDetailEvent acct r savings pct]⟩

/-- Python `json.dumps` of the per-type count dict, for keys that need no
escaping (resource-type identifiers are plain ASCII names). -/
def dumpsCounts (m : List (String × Nat)) : String :=
  "\x7b" ++ String.intercalate ", "
    (m.map (fun kv => "\"" ++ kv.1 ++ "\": " ++ toString kv.2)) ++ "\x7d"

/-- The recommendation `summary_event` dict literal (lambda_function.py
lines 266-273). -/
def recSummaryBase (cfg : Config) (acct : String) (totalCount : Nat)
    (totalSavings : ℚ) (byType : List (String × Nat)) : Event :=
  [("eventType", .str "AwsOptimizationReport"), ("recordType", .str "summary"),
   ("aws.accountId", .str acct), ("aws.lambdaRegion", .str cfg.targetRegion),
   ("recommendation.totalCount", .int totalCount),
   ("cost.totalEstimatedSavings", .num totalSavings),
   ("cost.totalEstimatedSavingsJpy", .int (pyRound (totalSavings * cfg.jpyRate))),
   ("recommendation.countByType", .str (dumpsCounts byType))]

/-- Model of `run_recommendation_workflow`: `allRecommendations` is the
union of `items` accumulated over all pagination pages; `bedrock` is the
narrative collaborator's outcome. -/
def run_recommendation_workflow (cfg : Config) (acct : String)
    (allRecommendations : List RecRecord) (bedrock : BedrockOutcome) : List Event :=
  if allRecommendations.isEmpty then []
  else
    let st := allRecommendations.foldl (processRec acct) ⟨0, [], []⟩
    let summary := enrichSummary
      (recSummaryBase cfg acct allRecommendations.length st.total st.byType) bedrock
    st.events ++ [summary]

-- =================================================================
-- Event-inspection helpers and key-preservation lemmas.
-- =================================================================

/-- Test for a summary record. -/
def isSummaryEv (ev : Event) : Bool := pyGet "recordType" ev = some (.str "summary")

/-- Test for a detail record. -/
def isDetailEv (ev : Event) : Bool := pyGet "recordType" ev = some (.str "detail")

/-- The first summary record of an event list. -/
def findSummary (evs : List Event) : Option Event := evs.find? isSummaryEv

/-- A field of the first summary record of an event list. -/
def summaryField (k : String) (evs : List Event) : Option PyVal :=
  (findSummary evs).bind (pyGet k)

/-- The detail records of an event list. -/
def detailEvents (evs : List Event) : List Event := evs.filter isDetailEv

/-- The `cost.unblended` amount of an event (0 if absent or non-numeric). -/
def unblendedOf (ev : Event) : ℚ :=
  match pyGet "cost.unblended" ev with
  | some (.num q) => q
  | _ => 0

/-- Sum of the detail records' `cost.unblended` amounts. -/
def detailAmountSum (evs : List Event) : ℚ :=
  ((detailEvents evs).map unblendedOf).sum

theorem ne_of_head (s t : String) (c : Char) (hs : s.data.head? = some c)
    (ht : t.data.head? ≠ some c) : s ≠ t := fun he => ht (he ▸ hs)

theorem head_append_left (p k : String) (c : Char) (hp : p.data.head? = some c) :
    (p ++ k).data.head? = some c := by
  rw [String.data_append, List.head?_append, hp]
  rfl


theorem mem_if_singleton {α : Type} {c : Prop} [Decidable c] {x kv : α}
    (h : kv ∈ (if c then [x] else [])) : kv = x := by
  split at h
  · simpa using h
  · simp at h

theorem costDetailExtras_head (cfg : Config) (keys : List String) :
    ∀ kv ∈ costDetailExtras cfg keys, kv.1.data.head? = some 'a' := by
  intro kv hkv
  unfold costDetailExtras at hkv
  rcases List.mem_append.mp hkv with hkv' | hkv'
  · rcases List.mem_append.mp hkv' with hkv2 | hkv2
    · rw [mem_if_singleton hkv2]
      exact head_append_left _ _ _ rfl
    · rw [mem_if_singleton hkv2]
      rfl
  · rw [mem_if_singleton hkv']
    exact head_append_left _ _ _ rfl

theorem pyGet_costDetailEvent (cfg : Config) (acct : String) (w : Date × Date)
    (g : CostGroup) (t : String) (ht : t.data.head? ≠ some 'a') :
    pyGet t (costDetailEvent cfg acct w g) = pyGet t (costDetailBase cfg acct w g) := by
  apply pyGet_dictUpdate_ne
  intro kv hkv
  exact ne_of_head kv.1 t 'a' (costDetailExtras_head cfg g.keys kv hkv) ht

theorem pyGet_enrichSummary (summary : Event) (b : BedrockOutcome) (t : String)
    (ht : t.data.head? ≠ some 'a') :
    pyGet t (enrichSummary summary b) = pyGet t summary := by
  cases b with
  | callError msg =>
    exact pyGet_dictSet_ne _ _ _ _ (ne_of_head "analysis.error" t 'a' rfl ht)
  | text s =>
    rw [show enrichSummary summary (.text s)
          = (match parseJsonObj (extractBraces s.data) with
             | some kvs => dictUpdate summary (analysisItems kvs)
             | none => dictSet summary "analysis.error" (.str jsonFailMsg)) from rfl]
    cases hp : parseJsonObj (extractBraces s.data) with
    | none =>
      exact pyGet_dictSet_ne _ _ _ _ (ne_of_head "analysis.error" t 'a' rfl ht)
    | some kvs =>
      apply pyGet_dictUpdate_ne
      intro kv hkv
      unfold analysisItems at hkv
      obtain ⟨kv0, _, hkv0⟩ := List.mem_map.mp hkv
      have : kv.1 = "analysis." ++ kv0.1 := by rw [← hkv0]
      rw [this]
      exact ne_of_head _ t 'a' (head_append_left _ _ _ rfl) ht

theorem recordType_costDetail (cfg : Config) (acct : String) (w : Date × Date)
    (g : CostGroup) :
    pyGet "recordType" (costDetailEvent cfg acct w g) = some (.str "detail") := by
  rw [pyGet_costDetailEvent cfg acct w g _ (by decide)]
  rfl

theorem recordType_costSummary (cfg : Config) (acct : String) (w : Date × Date)
    (total fc : ℚ) (b : BedrockOutcome) :
    pyGet "recordType" (enrichSummary (costSummaryBase cfg acct w total fc) b)
      = some (.str "summary") := by
  rw [pyGet_enrichSummary _ b _ (by decide)]
  rfl

theorem isDetailEv_costDetail (cfg : Config) (acct : String) (w : Date × Date)
    (g : CostGroup) : isDetailEv (costDetailEvent cfg acct w g) = true := by
  unfold isDetailEv
  rw [recordType_costDetail]
  simp

theorem isSummaryEv_costDetail (cfg : Config) (acct : String) (w : Date × Date)
    (g : CostGroup) : isSummaryEv (costDetailEvent cfg acct w g) = false := by
  unfold isSummaryEv
  rw [recordType_costDetail]
  simp

theorem isSummaryEv_costSummary (cfg : Config) (acct : String) (w : Date × Date)
    (total fc : ℚ) (b : BedrockOutcome) :
    isSummaryEv (enrichSummary (costSummaryBase cfg acct w total fc) b) = true := by
  unfold isSummaryEv
  rw [recordType_costSummary]
  simp

theorem isDetailEv_costSummary (cfg : Config) (acct : String) (w : Date × Date)
    (total fc : ℚ) (b : BedrockOutcome) :
    isDetailEv (enrichSummary (costSummaryBase cfg acct w total fc) b) = false := by
  unfold isDetailEv
  rw [pyGet_enrichSummary _ b _ (by decide)]
  simp [pyGet, costSummaryBase]

theorem unblended_costDetail (cfg : Config) (acct : String) (w : Date × Date)
    (g : CostGroup) : unblendedOf (costDetailEvent cfg acct w g) = g.amount := by
  unfold unblendedOf
  rw [pyGet_costDetailEvent cfg acct w g _ (by decide)]
  rfl

/-- Shape of the cost workflow's result when at least one group exists:
all detail events followed by the enriched summary event. -/
theorem run_cost_ok (cfg : Config) (acct : String) (today : Date) (g : CostGroup)
    (gs : List CostGroup) (fd : List ℚ) (b : BedrockOutcome) :
    run_cost_explorer_workflow cfg acct today (g :: gs) fd b =
      .ok (((g :: gs).map (costDetailEvent cfg acct (computeWindow today))) ++
        [enrichSummary (costSummaryBase cfg acct (computeWindow today)
          (((g :: gs).map (fun x => x.amount)).sum)
          (match (if today.day = 1 then [] else fd) with
           | [] => (0 : ℚ)
           | m :: _ => m)) b]) := rfl

/-- C4: for every set of cost groups, the summary record's
`cost.totalUnblended` equals the sum of the `cost.unblended` amounts of all
emitted detail records. -/
theorem cost_total_equals_detail_sum (cfg : Config) (acct : String) (today : Date)
    (groups : List CostGroup) (fd : List ℚ) (b : BedrockOutcome) (evs : List Event)
    (hok : run_cost_explorer_workflow cfg acct today groups fd b = .ok evs)
    (hne : evs ≠ []) :
    summaryField "cost.totalUnblended" evs = some (.num (detailAmountSum evs)) := by
  cases groups with
  | nil =>
    unfold run_cost_explorer_workflow at hok
    by_cases hfd : (if today.day = 1 then [] else fd).isEmpty
    · simp [hfd] at hok
      exact absurd hok hne
    · simp [hfd] at hok
  | cons g gs =>
    rw [run_cost_ok] at hok
    injection hok with hevs
    subst hevs
    have h1 : findSummary
        (((g :: gs).map (costDetailEvent cfg acct (computeWindow today))) ++
          [enrichSummary (costSummaryBase cfg acct (computeWindow today)
            (((g :: gs).map (fun x => x.amount)).sum)
            (match (if today.day = 1 then [] else fd) with
             | [] => (0 : ℚ)
             | m :: _ => m)) b])
        = some (enrichSummary (costSummaryBase cfg acct (computeWindow today)
            (((g :: gs).map (fun x => x.amount)).sum)
            (match (if today.day = 1 then [] else fd) with
             | [] => (0 : ℚ)
             | m :: _ => m)) b) := by
      unfold findSummary
      rw [List.find?_append]
      have hnone : ((g :: gs).map (costDetailEvent cfg acct (computeWindow today))).find?
          isSummaryEv = none := by
        rw [List.find?_eq_none]
        intro ev hev
        obtain ⟨g', _, hg'⟩ := List.mem_map.mp hev
        rw [← hg']
        simp [isSummaryEv_costDetail]
      rw [hnone]
      simp [List.find?, isSummaryEv_costSummary]
    have h3 : detailAmountSum
        (((g :: gs).map (costDetailEvent cfg acct (computeWindow today))) ++
          [enrichSummary (costSummaryBase cfg acct (computeWindow today)
            (((g :: gs).map (fun x => x.amount)).sum)
            (match (if today.day = 1 then [] else fd) with
             | [] => (0 : ℚ)
             | m :: _ => m)) b])
        = ((g :: gs).map (fun x => x.amount)).sum := by
      unfold detailAmountSum detailEvents
      rw [List.filter_append]
      have hkeep : ((g :: gs).map (costDetailEvent cfg acct (computeWindow today))).filter
          isDetailEv = (g :: gs).map (costDetailEvent cfg acct (computeWindow today)) := by
        rw [List.filter_eq_self]
        intro ev hev
        obtain ⟨g', _, hg'⟩ := List.mem_map.mp hev
        rw [← hg']
        exact isDetailEv_costDetail cfg acct (computeWindow today) g'
      have hdrop : [enrichSummary (costSummaryBase cfg acct (computeWindow today)
            (((g :: gs).map (fun x => x.amount)).sum)
            (match (if today.day = 1 then [] else fd) with
             | [] => (0 : ℚ)
             | m :: _ => m)) b].filter isDetailEv = [] := by
        simp [List.filter, isDetailEv_costSummary]
      rw [hkeep, hdrop, List.append_nil, List.map_map]
      congr 1
      apply List.map_congr_left
      intro g' _
      exact unblended_costDetail cfg acct (computeWindow today) g'
    unfold summaryField
    rw [h1, h3]
    show pyGet "cost.totalUnblended"
        (enrichSummary (costSummaryBase cfg acct (computeWindow today)
          (((g :: gs).map (fun x => x.amount)).sum)
          (match (if today.day = 1 then [] else fd) with
           | [] => (0 : ℚ)
           | m :: _ => m)) b)
      = some (.num (((g :: gs).map (fun x => x.amount)).sum))
    rw [pyGet_enrichSummary _ b _ (by decide)]
    rfl

/-- Configuration used by the concrete witnesses below. -/
def exCfg : Config := ⟨"us-east-1", "SERVICE", none, 150⟩

/-- Concrete instantiation of `cost_total_equals_detail_sum`: one group of
10 USD on a mid-month run with no forecast and a failing Bedrock call. -/
theorem cost_total_equals_detail_sum_witness :
    summaryField "cost.totalUnblended"
      ((run_cost_explorer_workflow exCfg "123456789012" ⟨2025, 8, 15⟩
        [⟨["Amazon EC2", "us-east-1"], 10, "USD"⟩] [] (.callError "x")).toOption.getD [])
      = some (.num (detailAmountSum
        ((run_cost_explorer_workflow exCfg "123456789012" ⟨2025, 8, 15⟩
          [⟨["Amazon EC2", "us-east-1"], 10, "USD"⟩] [] (.callError "x")).toOption.getD []))) := by
  apply cost_total_equals_detail_sum exCfg "123456789012" ⟨2025, 8, 15⟩
    [⟨["Amazon EC2", "us-east-1"], 10, "USD"⟩] [] (.callError "x")
  · rfl
  · decide

-- =================================================================
-- C8: presence and value of `cost.monthlyForecast`.
-- =================================================================

/-- Counterexample to C8 as stated: on a first-day-of-month run the cost
summary record still contains `cost.monthlyForecast` — with value 0.0 — and
not, as claimed, no such field at all. -/
theorem forecast_field_counterexample :
    summaryField "cost.monthlyForecast"
      ((run_cost_explorer_workflow exCfg "123456789012" ⟨2025, 8, 1⟩
        [⟨["Amazon EC2", "us-east-1"], 10, "USD"⟩] [] (.callError "x")).toOption.getD [])
      = some (.num 0) ∧
    summaryField "cost.monthlyForecast"
      ((run_cost_explorer_workflow exCfg "123456789012" ⟨2025, 8, 1⟩
        [⟨["Amazon EC2", "us-east-1"], 10, "USD"⟩] [] (.callError "x")).toOption.getD [])
      ≠ none := by
  constructor
  · rfl
  · intro h
    simp [show summaryField "cost.monthlyForecast"
      ((run_cost_explorer_workflow exCfg "123456789012" ⟨2025, 8, 1⟩
        [⟨["Amazon EC2", "us-east-1"], 10, "USD"⟩] [] (.callError "x")).toOption.getD [])
      = some (.num 0) from rfl] at h

/-- First summary record of a details-then-summary event list. -/
theorem findSummary_details_append (details : List Event) (s : Event)
    (hd : ∀ ev ∈ details, isSummaryEv ev = false) (hs : isSummaryEv s = true) :
    findSummary (details ++ [s]) = some s := by
  unfold findSummary
  rw [List.find?_append]
  have hnone : details.find? isSummaryEv = none := by
    rw [List.find?_eq_none]
    intro ev hev
    simp [hd ev hev]
  rw [hnone]
  simp [List.find?, hs]

/-- C8 amended: whenever the cost workflow emits a summary record, that
record carries a `cost.monthlyForecast` field unconditionally (the
`summary_event` dict literal always contains it); the value is 0.0 on a
first-day run and on a non-first-day run with no forecast data, and the
forecast's `MeanValue` otherwise — the field is never absent. -/
theorem forecast_field_amended (cfg : Config) (acct : String) (today : Date)
    (groups : List CostGroup) (fd : List ℚ) (b : BedrockOutcome) (evs : List Event)
    (hok : run_cost_explorer_workflow cfg acct today groups fd b = .ok evs)
    (hne : evs ≠ []) :
    summaryField "cost.monthlyForecast" evs =
      some (.num (match (if today.day = 1 then [] else fd) with
                  | [] => (0 : ℚ)
                  | m :: _ => m)) := by
  cases groups with
  | nil =>
    unfold run_cost_explorer_workflow at hok
    by_cases hfd : (if today.day = 1 then [] else fd).isEmpty
    · simp [hfd] at hok
      exact absurd hok hne
    · simp [hfd] at hok
  | cons g gs =>
    rw [run_cost_ok] at hok
    injection hok with hevs
    subst hevs
    rw [summaryField, findSummary_details_append]
    · show pyGet "cost.monthlyForecast"
        (enrichSummary (costSummaryBase cfg acct (computeWindow today)
          (((g :: gs).map (fun x => x.amount)).sum)
          (match (if today.day = 1 then [] else fd) with
           | [] => (0 : ℚ)
           | m :: _ => m)) b) = _
      rw [pyGet_enrichSummary _ b _ (by decide)]
      rfl
    · intro ev hev
      obtain ⟨g', _, hg'⟩ := List.mem_map.mp hev
      rw [← hg']
      exact isSummaryEv_costDetail cfg acct (computeWindow today) g'
    · exact isSummaryEv_costSummary cfg acct (computeWindow today) _ _ b

/-- Concrete instantiation of `forecast_field_amended`: non-first-day run
with unavailable forecast gives value 0.0. -/
theorem forecast_field_amended_witness :
    summaryField "cost.monthlyForecast"
      ((run_cost_explorer_workflow exCfg "123456789012" ⟨2025, 8, 15⟩
        [⟨["Amazon S3", "us-east-1"], 3, "USD"⟩] [] (.callError "x")).toOption.getD [])
      = some (.num 0) := by
  have h := forecast_field_amended exCfg "123456789012" ⟨2025, 8, 15⟩
    [⟨["Amazon S3", "us-east-1"], 3, "USD"⟩] [] (.callError "x")
    ((run_cost_explorer_workflow exCfg "123456789012" ⟨2025, 8, 15⟩
      [⟨["Amazon S3", "us-east-1"], 3, "USD"⟩] [] (.callError "x")).toOption.getD [])
    rfl (by decide)
  exact h

-- =================================================================
-- C9: at most one summary record; summary only when source data existed.
-- =================================================================

theorem recordType_recDetail (acct : String) (r : RecRecord) (savings pct : ℚ) :
    pyGet "recordType" (recDetailEvent acct r savings pct) = some (.str "detail") := rfl

theorem isDetailEv_recDetail (acct : String) (r : RecRecord) (savings pct : ℚ) :
    isDetailEv (recDetailEvent acct r savings pct) = true := by
  unfold isDetailEv
  rw [recordType_recDetail]
  simp

theorem isSummaryEv_recDetail (acct : String) (r : RecRecord) (savings pct : ℚ) :
    isSummaryEv (recDetailEvent acct r savings pct) = false := by
  unfold isSummaryEv
  rw [recordType_recDetail]
  simp

theorem recordType_recSummary (cfg : Config) (acct : String) (n : Nat) (total : ℚ)
    (byType : List (String × Nat)) (b : BedrockOutcome) :
    pyGet "recordType" (enrichSummary (recSummaryBase cfg acct n total byType) b)
      = some (.str "summary") := by
  rw [pyGet_enrichSummary _ b _ (by decide)]
  rfl

theorem isSummaryEv_recSummary (cfg : Config) (acct : String) (n : Nat) (total : ℚ)
    (byType : List (String × Nat)) (b : BedrockOutcome) :
    isSummaryEv (enrichSummary (recSummaryBase cfg acct n total byType) b) = true := by
  unfold isSummaryEv
  rw [recordType_recSummary]
  simp

theorem isDetailEv_recSummary (cfg : Config) (acct : String) (n : Nat) (total : ℚ)
    (byType : List (String × Nat)) (b : BedrockOutcome) :
    isDetailEv (enrichSummary (recSummaryBase cfg acct n total byType) b) = false := by
  unfold isDetailEv
  rw [pyGet_enrichSummary _ b _ (by decide)]
  simp [pyGet, recSummaryBase]

/-- Every event accumulated by the recommendation loop is a detail record. -/
theorem foldRec_events_detail (acct : String) (recs : List RecRecord) (st : RecState)
    (h : ∀ ev ∈ st.events, isDetailEv ev = true ∧ isSummaryEv ev = false) :
    ∀ ev ∈ (recs.foldl (processRec acct) st).events,
      isDetailEv ev = true ∧ isSummaryEv ev = false := by
  induction recs generalizing st with
  | nil => exact h
  | cons r rest ih =>
    rw [List.foldl_cons]
    apply ih
    intro ev hev
    unfold processRec at hev
    cases hs : parseNum r.estimatedMonthlySavings with
    | none =>
      rw [hs] at hev
      exact h ev hev
    | some savings =>
      rw [hs] at hev
      cases hp : parseNum r.estimatedSavingsPercentage with
      | none =>
        rw [hp] at hev
        exact h ev hev
      | some pct =>
        rw [hp] at hev
        simp only at hev
        rcases List.mem_append.mp hev with hev' | hev'
        · exact h ev hev'
        · rw [List.mem_singleton.mp hev']
          exact ⟨isDetailEv_recDetail acct r savings pct,
            isSummaryEv_recDetail acct r savings pct⟩

/-- C9: each workflow's produced event list has at most one summary record
and otherwise only detail records; a summary is present only when at least
one source record (or, for cost, forecast data) existed; with no
recommendations the Recommendation Aggregator returns an empty list, and
with no cost data and no forecast the Cost Aggregator returns an empty
list. -/
theorem record_list_invariant :
    (∀ (cfg : Config) (acct : String) (today : Date) (groups : List CostGroup)
       (fd : List ℚ) (b : BedrockOutcome) (evs : List Event),
      run_cost_explorer_workflow cfg acct today groups fd b = .ok evs →
      evs.countP isSummaryEv ≤ 1 ∧
      (∀ ev ∈ evs, isDetailEv ev = true ∨ isSummaryEv ev = true) ∧
      ((∃ ev ∈ evs, isSummaryEv ev = true) →
        groups ≠ [] ∨ (if today.day = 1 then [] else fd) ≠ [])) ∧
    (∀ (cfg : Config) (acct : String) (today : Date) (b : BedrockOutcome),
      run_cost_explorer_workflow cfg acct today [] [] b = .ok []) ∧
    (∀ (cfg : Config) (acct : String) (b : BedrockOutcome),
      run_recommendation_workflow cfg acct [] b = []) ∧
    (∀ (cfg : Config) (acct : String) (recs : List RecRecord) (b : BedrockOutcome),
      (run_recommendation_workflow cfg acct recs b).countP isSummaryEv ≤ 1 ∧
      (∀ ev ∈ run_recommendation_workflow cfg acct recs b,
        isDetailEv ev = true ∨ isSummaryEv ev = true) ∧
      ((∃ ev ∈ run_recommendation_workflow cfg acct recs b, isSummaryEv ev = true) →
        recs ≠ [])) := by
  refine ⟨?_, ?_, ?_, ?_⟩
  · intro cfg acct today groups fd b evs hok
    cases groups with
    | nil =>
      unfold run_cost_explorer_workflow at hok
      by_cases hfd : (if today.day = 1 then [] else fd).isEmpty
      · simp [hfd] at hok
        subst hok
        refine ⟨by simp, by simp, ?_⟩
        rintro ⟨ev, hev, _⟩
        simp at hev
      · simp [hfd] at hok
    | cons g gs =>
      rw [run_cost_ok] at hok
      injection hok with hevs
      subst hevs
      refine ⟨?_, ?_, fun _ => Or.inl (by simp)⟩
      · rw [List.countP_append]
        have h0 : ((g :: gs).map (costDetailEvent cfg acct (computeWindow today))).countP
            isSummaryEv = 0 := by
          rw [List.countP_eq_zero]
          intro ev hev
          obtain ⟨g', _, hg'⟩ := List.mem_map.mp hev
          rw [← hg']
          simp [isSummaryEv_costDetail]
        rw [h0]
        simp [List.countP_cons, isSummaryEv_costSummary]
      · intro ev hev
        rcases List.mem_append.mp hev with hev' | hev'
        · obtain ⟨g', _, hg'⟩ := List.mem_map.mp hev'
          rw [← hg']
          exact Or.inl (isDetailEv_costDetail cfg acct (computeWindow today) g')
        · rw [List.mem_singleton.mp hev']
          exact Or.inr (isSummaryEv_costSummary cfg acct (computeWindow today) _ _ b)
  · intro cfg acct today b
    unfold run_cost_explorer_workflow
    simp
  · intro cfg acct b
    rfl
  · intro cfg acct recs b
    cases recs with
    | nil => refine ⟨by simp [run_recommendation_workflow], by simp [run_recommendation_workflow], fun h => ?_⟩
             obtain ⟨ev, hev, _⟩ := h
             simp [run_recommendation_workflow] at hev
    | cons r rest =>
      have hrun : run_recommendation_workflow cfg acct (r :: rest) b =
          ((r :: rest).foldl (processRec acct) ⟨0, [], []⟩).events ++
          [enrichSummary (recSummaryBase cfg acct (r :: rest).length
            ((r :: rest).foldl (processRec acct) ⟨0, [], []⟩).total
            ((r :: rest).foldl (processRec acct) ⟨0, [], []⟩).byType) b] := rfl
      rw [hrun]
      have hdet := foldRec_events_detail acct (r :: rest) ⟨0, [], []⟩ (by intro ev hev; simp at hev)
      refine ⟨?_, ?_, fun _ => by simp⟩
      · rw [List.countP_append]
        have h0 : (((r :: rest).foldl (processRec acct) ⟨0, [], []⟩).events).countP
            isSummaryEv = 0 := by
          rw [List.countP_eq_zero]
          intro ev hev
          simp [(hdet ev hev).2]
        rw [h0]
        simp [List.countP_cons, isSummaryEv_recSummary]
      · intro ev hev
        rcases List.mem_append.mp hev with hev' | hev'
        · exact Or.inl (hdet ev hev').1
        · rw [List.mem_singleton.mp hev']
          exact Or.inr (isSummaryEv_recSummary cfg acct _ _ _ b)

/-- Concrete instantiation of `record_list_invariant`: empty-source runs
return empty lists, and a one-group cost run has exactly one summary. -/
theorem record_list_invariant_witness :
    run_recommendation_workflow exCfg "123456789012" [] (.callError "x") = [] ∧
    run_cost_explorer_workflow exCfg "123456789012" ⟨2025, 8, 2⟩ [] [] (.callError "x")
      = .ok [] ∧
    ((run_cost_explorer_workflow exCfg "123456789012" ⟨2025, 8, 2⟩
      [⟨["AWS Lambda", "us-east-1"], 5, "USD"⟩] [] (.callError "x")).toOption.getD
        []).countP isSummaryEv ≤ 1 := by
  refine ⟨record_list_invariant.2.2.1 exCfg "123456789012" (.callError "x"),
    record_list_invariant.2.1 exCfg "123456789012" ⟨2025, 8, 2⟩ (.callError "x"), ?_⟩
  exact (record_list_invariant.1 exCfg "123456789012" ⟨2025, 8, 2⟩
    [⟨["AWS Lambda", "us-east-1"], 5, "USD"⟩] [] (.callError "x") _ rfl).1

-- =================================================================
-- C5: the top-cost-drivers computation.
-- =================================================================

/-- The comparison `sorted(..., key=amount, reverse=True)` sorts by:
`a` may precede `b` iff `b`'s amount is at most `a`'s. -/
def descLe (a b : CostGroup) : Bool := b.amount ≤ a.amount

theorem descLe_trans : ∀ a b c : CostGroup,
    descLe a b → descLe b c → descLe a c := by
  intro a b c hab hbc
  simp only [descLe, decide_eq_true_eq] at *
  exact le_trans hbc hab

theorem descLe_total : ∀ a b : CostGroup, descLe a b || descLe b a := by
  intro a b
  simp only [descLe, Bool.or_eq_true, decide_eq_true_eq]
  exact le_total b.amount a.amount

/-- C5: the top-cost-drivers list has length `min 5 (number of groups)`, is
sorted in descending order of amount, preserves the original relative
source order among groups of equal amount (stability, stated as: for every
amount value, the top-5 groups carrying it form a sublist of the source
groups carrying it), and is the image of the top-5 groups under the
driver-record constructor. -/
theorem top_drivers_spec (rate : Int) (groups : List CostGroup) :
    (top_cost_drivers rate groups).length = min 5 groups.length ∧
    (top_cost_drivers rate groups).Pairwise (fun a b => b.cost_usd ≤ a.cost_usd) ∧
    (∀ q : ℚ, List.Sublist ((top_5_groups groups).filter (fun g => g.amount = q))
      (groups.filter (fun g => g.amount = q))) ∧
    top_cost_drivers rate groups = (top_5_groups groups).map (mkDriver rate) := by
  have hmerge : top_5_groups groups = (groups.mergeSort descLe).take 5 := rfl
  refine ⟨?_, ?_, ?_, rfl⟩
  · unfold top_cost_drivers
    rw [List.length_map, hmerge, List.length_take, List.length_mergeSort]
  · unfold top_cost_drivers
    rw [List.pairwise_map]
    have hsorted : (groups.mergeSort descLe).Pairwise (fun a b => descLe a b = true) :=
      List.sorted_mergeSort descLe_trans descLe_total groups
    have htake : ((groups.mergeSort descLe).take 5).Pairwise
        (fun a b => descLe a b = true) :=
      hsorted.sublist (List.take_sublist 5 _)
    rw [hmerge]
    refine htake.imp ?_
    intro a b hab
    simpa [descLe, mkDriver] using hab
  · intro q
    have hperm : List.Perm ((groups.mergeSort descLe).filter (fun g => g.amount = q))
        (groups.filter (fun g => g.amount = q)) :=
      (List.mergeSort_perm groups descLe).filter _
    have hc : ∀ x ∈ groups.filter (fun g => decide (g.amount = q)), x.amount = q := by
      intro x hx
      have := (List.mem_filter.mp hx).2
      simpa using this
    have hcp : (groups.filter (fun g => decide (g.amount = q))).Pairwise
        (fun a b => descLe a b = true) := by
      apply List.pairwise_of_forall_mem_list
      intro a ha b hb
      simp [descLe, hc a ha, hc b hb]
    have hsub : List.Sublist (groups.filter (fun g => decide (g.amount = q)))
        (groups.mergeSort descLe) :=
      List.sublist_mergeSort descLe_trans descLe_total hcp (List.filter_sublist groups)
    have hsub2 : List.Sublist ((groups.filter (fun g => decide (g.amount = q))).filter
        (fun g => decide (g.amount = q)))
        ((groups.mergeSort descLe).filter (fun g => decide (g.amount = q))) :=
      hsub.filter _
    have hidem : (groups.filter (fun g => decide (g.amount = q))).filter
        (fun g => decide (g.amount = q)) = groups.filter (fun g => decide (g.amount = q)) := by
      rw [List.filter_eq_self]
      intro a ha
      simp [hc a ha]
    rw [hidem] at hsub2
    have heq : (groups.mergeSort descLe).filter (fun g => decide (g.amount = q))
        = groups.filter (fun g => decide (g.amount = q)) :=
      (hsub2.eq_of_length hperm.length_eq.symm).symm
    have hfinal := (List.take_sublist 5 (groups.mergeSort descLe)).filter
      (fun g => decide (g.amount = q))
    rw [heq] at hfinal
    rw [hmerge]
    exact hfinal

-- =================================================================
-- C7: the Narrative Enrichment Adapter.
-- =================================================================

theorem firstIdx_append_left (c : Char) (p l : List Char) (h : c ∉ p) :
    firstIdx c (p ++ l) = (firstIdx c l).map (fun i => i + p.length) := by
  induction p with
  | nil =>
    simp only [List.nil_append, List.length_nil]
    cases firstIdx c l with
    | none => rfl
    | some i => simp
  | cons x xs ih =>
    have hx : ¬x = c := fun hh => h (hh ▸ List.mem_cons_self x xs)
    have hxs : c ∉ xs := fun hh => h (List.mem_cons_of_mem x hh)
    have hstep : firstIdx c (x :: (xs ++ l))
        = (firstIdx c (xs ++ l)).map (fun i => i + 1) := by
      simp only [firstIdx, if_neg hx]
    rw [List.cons_append, hstep, ih hxs]
    cases firstIdx c l with
    | none => rfl
    | some i =>
      simp only [Option.map_map, Option.map_some', Function.comp_apply]
      show some (i + xs.length + 1) = some (i + (x :: xs).length)
      rw [List.length_cons, Nat.add_assoc]

theorem analysis_key_inj (k k' : String)
    (h : ("analysis." ++ k) = ("analysis." ++ k')) : k = k' := by
  apply String.ext
  have hd := congrArg String.data h
  rw [String.data_append, String.data_append] at hd
  exact List.append_cancel_left hd

/-- Extraction of the substring between the first `{` and the last `}`
from a text that embeds `{"x":1}` in brace-free prose. -/
theorem extract_embedded (pre suf : String) (hpre : '{' ∉ pre.data)
    (hsuf : '}' ∉ suf.data) :
    extractBraces ((pre ++ "\x7b\"x\":1\x7d" ++ suf).data) = "\x7b\"x\":1\x7d".data := by
  have hdata : (pre ++ "\x7b\"x\":1\x7d" ++ suf).data
      = pre.data ++ ("\x7b\"x\":1\x7d".data ++ suf.data) := by
    rw [String.data_append, String.data_append, List.append_assoc]
  have hmidlen : ("\x7b\"x\":1\x7d".data).length = 7 := by decide
  have hlen : (pre.data ++ ("\x7b\"x\":1\x7d".data ++ suf.data)).length
      = pre.data.length + (7 + suf.data.length) := by
    rw [List.length_append, List.length_append, hmidlen]
  unfold extractBraces
  rw [hdata]
  have hfind : pyFind (pre.data ++ ("\x7b\"x\":1\x7d".data ++ suf.data)) '{'
      = (pre.data.length : Int) := by
    unfold pyFind
    rw [firstIdx_append_left _ _ _ hpre,
      show firstIdx '{' ("\x7b\"x\":1\x7d".data ++ suf.data) = some 0 from rfl]
    simp
  have hrfind : pyRfind (pre.data ++ ("\x7b\"x\":1\x7d".data ++ suf.data)) '}'
      = (pre.data.length : Int) + 6 := by
    have hrev : (pre.data ++ ("\x7b\"x\":1\x7d".data ++ suf.data)).reverse
        = suf.data.reverse ++ (("\x7b\"x\":1\x7d".data).reverse ++ pre.data.reverse) := by
      simp [List.reverse_append]
    have hsufrev : '}' ∉ suf.data.reverse := by
      simpa [List.mem_reverse] using hsuf
    have h0 : firstIdx '}'
        ((pre.data ++ ("\x7b\"x\":1\x7d".data ++ suf.data)).reverse)
        = some suf.data.length := by
      rw [hrev, firstIdx_append_left _ _ _ hsufrev,
        show firstIdx '}' (("\x7b\"x\":1\x7d".data).reverse ++ pre.data.reverse)
          = some 0 from rfl]
      simp
    unfold pyRfind
    rw [h0]
    show ((pre.data ++ ("\x7b\"x\":1\x7d".data ++ suf.data)).length : Int) - 1
        - suf.data.length = (pre.data.length : Int) + 6
    rw [hlen]
    push_cast
    omega
  rw [hfind, hrfind]
  unfold pySlice pyNormIdx
  have hb : ((pre.data.length : Int) + 6 + 1) = ((pre.data.length + 7 : Nat) : Int) := by
    push_cast
    ring
  rw [hb]
  rw [if_neg (by omega : ¬((pre.data.length + 7 : Nat) : Int) < 0)]
  rw [if_neg (by omega : ¬(pre.data.length : Int) < 0)]
  rw [Int.toNat_natCast, Int.toNat_natCast, hlen]
  rw [show min (pre.data.length + 7) (pre.data.length + (7 + suf.data.length))
        = pre.data.length + 7 from by omega]
  rw [show min pre.data.length (pre.data.length + (7 + suf.data.length))
        = pre.data.length from by omega]
  rw [← List.append_assoc]
  have htl : (pre.data ++ "\x7b\"x\":1\x7d".data).length = pre.data.length + 7 := by
    rw [List.length_append, hmidlen]
  rw [List.take_left' htl]
  exact List.drop_left' rfl

/-- C7: the Narrative Enrichment Adapter never raises (it is a total
function of the collaborator's outcome); on a call error, or on a response
whose text has no parsable JSON object between its first `{` and last `}`,
the summary gains a single `analysis.error` field and no other
`analysis.<key>` field; on a response embedding `{"x":1}` in brace-free
prose the summary gains `analysis.x = 1`. -/
theorem enrichment_adapter_spec :
    (∀ (summary : Event) (msg : String),
      (∀ k : String, pyGet ("analysis." ++ k) summary = none) →
      pyGet "analysis.error" (enrichSummary summary (.callError msg)) = some (.str msg) ∧
      ∀ k : String, k ≠ "error" →
        pyGet ("analysis." ++ k) (enrichSummary summary (.callError msg)) = none) ∧
    (∀ (summary : Event) (t : String),
      parseJsonObj (extractBraces t.data) = none →
      (∀ k : String, pyGet ("analysis." ++ k) summary = none) →
      pyGet "analysis.error" (enrichSummary summary (.text t)) = some (.str jsonFailMsg) ∧
      ∀ k : String, k ≠ "error" →
        pyGet ("analysis." ++ k) (enrichSummary summary (.text t)) = none) ∧
    (∀ (summary : Event) (pre suf : String),
      '{' ∉ pre.data → '}' ∉ suf.data →
      pyGet "analysis.x"
        (enrichSummary summary (.text (pre ++ "\x7b\"x\":1\x7d" ++ suf)))
        = some (.int 1)) := by
  have herrkey : ∀ k : String, k ≠ "error" →
      ("analysis.error" : String) ≠ "analysis." ++ k := by
    intro k hk he
    apply hk
    have h2 : ("analysis." ++ "error" : String) = "analysis." ++ k := he
    exact (analysis_key_inj _ _ h2).symm
  refine ⟨?_, ?_, ?_⟩
  · intro summary msg hold
    constructor
    · exact pyGet_dictSet_eq summary "analysis.error" (.str msg)
    · intro k hk
      show pyGet ("analysis." ++ k) (dictSet summary "analysis.error" (.str msg)) = none
      rw [pyGet_dictSet_ne summary "analysis.error" _ _ (herrkey k hk)]
      exact hold k
  · intro summary t hparse hold
    have hred : enrichSummary summary (.text t)
        = dictSet summary "analysis.error" (.str jsonFailMsg) := by
      rw [show enrichSummary summary (.text t)
            = (match parseJsonObj (extractBraces t.data) with
               | some kvs => dictUpdate summary (analysisItems kvs)
               | none => dictSet summary "analysis.error" (.str jsonFailMsg)) from rfl,
        hparse]
    rw [hred]
    constructor
    · exact pyGet_dictSet_eq summary "analysis.error" (.str jsonFailMsg)
    · intro k hk
      rw [pyGet_dictSet_ne summary "analysis.error" _ _ (herrkey k hk)]
      exact hold k
  · intro summary pre suf hpre hsuf
    have hred : enrichSummary summary (.text (pre ++ "\x7b\"x\":1\x7d" ++ suf))
        = dictSet summary ("analysis." ++ "x") (.int 1) := by
      rw [show enrichSummary summary (.text (pre ++ "\x7b\"x\":1\x7d" ++ suf))
            = (match parseJsonObj
                 (extractBraces ((pre ++ "\x7b\"x\":1\x7d" ++ suf).data)) with
               | some kvs => dictUpdate summary (analysisItems kvs)
               | none => dictSet summary "analysis.error" (.str jsonFailMsg)) from rfl,
        extract_embedded pre suf hpre hsuf,
        show parseJsonObj ("\x7b\"x\":1\x7d".data) = some [("x", PyVal.int 1)] from rfl]
      rfl
    rw [hred, show ("analysis." ++ "x" : String) = "analysis.x" from by decide]
    exact pyGet_dictSet_eq summary "analysis.x" (.int 1)

/-- Concrete instantiation of `enrichment_adapter_spec`: a summary with only
a `recordType` field, a failing call, and a prose-embedded JSON object. -/
theorem enrichment_adapter_spec_witness :
    pyGet "analysis.error"
      (enrichSummary [("recordType", PyVal.str "summary")] (.callError "boom"))
      = some (.str "boom") ∧
    pyGet "analysis.x"
      (enrichSummary [("recordType", PyVal.str "summary")]
        (.text ("Here is the report: " ++ "\x7b\"x\":1\x7d" ++ " Thank you.")))
      = some (.int 1) := by
  have hold : ∀ k : String,
      pyGet ("analysis." ++ k) [("recordType", PyVal.str "summary")] = none := by
    intro k
    have hne := append_ne_of_head "analysis." k "recordType" 'a' rfl (by decide)
    unfold pyGet
    rw [if_neg (fun hh => hne hh.symm)]
    rfl
  constructor
  · exact (enrichment_adapter_spec.1 [("recordType", PyVal.str "summary")] "boom" hold).1
  · exact enrichment_adapter_spec.2.2 [("recordType", PyVal.str "summary")]
      "Here is the report: " " Thank you." (by decide) (by decide)

-- =================================================================
-- C6 / C10: the recommendation loop's handling of malformed records.
-- =================================================================

/-- Shape of the recommendation workflow's result on a non-empty source. -/
theorem run_rec_ok (cfg : Config) (acct : String) (r : RecRecord)
    (rest : List RecRecord) (b : BedrockOutcome) :
    run_recommendation_workflow cfg acct (r :: rest) b =
      ((r :: rest).foldl (processRec acct) ⟨0, [], []⟩).events ++
      [enrichSummary (recSummaryBase cfg acct (r :: rest).length
        ((r :: rest).foldl (processRec acct) ⟨0, [], []⟩).total
        ((r :: rest).foldl (processRec acct) ⟨0, [], []⟩).byType) b] := rfl

/-- Full characterisation of the recommendation loop's state: the savings
total accumulates the parsed `estimatedMonthlySavings` of every record
whose savings parse (0 for absent), the per-type counts count every record
whose savings parse, and a detail event is appended only for records whose
savings AND percentage both parse. -/
theorem foldRec_state (acct : String) (recs : List RecRecord) (st : RecState) :
    (recs.foldl (processRec acct) st).total
      = st.total + (recs.map (fun r => (parseNum r.estimatedMonthlySavings).getD 0)).sum ∧
    (recs.foldl (processRec acct) st).byType
      = recs.foldl (fun m r => if (parseNum r.estimatedMonthlySavings).isSome
          then bumpCount m r.resourceType else m) st.byType ∧
    (recs.foldl (processRec acct) st).events
      = st.events ++ (recs.filter (fun r => (parseNum r.estimatedMonthlySavings).isSome
          ∧ (parseNum r.estimatedSavingsPercentage).isSome)).map
          (fun r => recDetailEvent acct r ((parseNum r.estimatedMonthlySavings).getD 0)
            ((parseNum r.estimatedSavingsPercentage).getD 0)) := by
  induction recs generalizing st with
  | nil => simp
  | cons r rest ih =>
    cases hs : parseNum r.estimatedMonthlySavings with
    | none =>
      have hpr : processRec acct st r = st := by
        unfold processRec
        rw [hs]
      simp only [List.foldl_cons, hpr]
      obtain ⟨ih1, ih2, ih3⟩ := ih st
      refine ⟨?_, ?_, ?_⟩
      · rw [ih1]
        simp [hs]
      · rw [ih2]
        simp [hs]
      · rw [ih3]
        simp [List.filter_cons, hs]
    | some s =>
      cases hp : parseNum r.estimatedSavingsPercentage with
      | none =>
        have hpr : processRec acct st r
            = ⟨st.total + s, bumpCount st.byType r.resourceType, st.events⟩ := by
          unfold processRec
          rw [hs, hp]
        simp only [List.foldl_cons, hpr]
        obtain ⟨ih1, ih2, ih3⟩ :=
          ih ⟨st.total + s, bumpCount st.byType r.resourceType, st.events⟩
        refine ⟨?_, ?_, ?_⟩
        · rw [ih1]
          simp [hs]
          ring
        · rw [ih2]
          simp [hs]
        · rw [ih3]
          simp [List.filter_cons, hs, hp]
      | some p =>
        have hpr : processRec acct st r
            = ⟨st.total + s, bumpCount st.byType r.resourceType,
               st.events ++ [recDetailEvent acct r s p]⟩ := by
          unfold processRec
          rw [hs, hp]
        simp only [List.foldl_cons, hpr]
        obtain ⟨ih1, ih2, ih3⟩ :=
          ih ⟨st.total + s, bumpCount st.byType r.resourceType,
              st.events ++ [recDetailEvent acct r s p]⟩
        refine ⟨?_, ?_, ?_⟩
        · rw [ih1]
          simp [hs]
          ring
        · rw [ih2]
          simp [hs]
        · rw [ih3]
          simp [List.filter_cons, hs, hp]

theorem totalSavings_recSummary (cfg : Config) (acct : String) (n : Nat)
    (total : ℚ) (byType : List (String × Nat)) (b : BedrockOutcome) :
    pyGet "cost.totalEstimatedSavings"
      (enrichSummary (recSummaryBase cfg acct n total byType) b)
      = some (.num total) := by
  rw [pyGet_enrichSummary _ b _ (by decide)]
  rfl

theorem countByType_recSummary (cfg : Config) (acct : String) (n : Nat)
    (total : ℚ) (byType : List (String × Nat)) (b : BedrockOutcome) :
    pyGet "recommendation.countByType"
      (enrichSummary (recSummaryBase cfg acct n total byType) b)
      = some (.str (dumpsCounts byType)) := by
  rw [pyGet_enrichSummary _ b _ (by decide)]
  rfl

theorem totalCount_recSummary (cfg : Config) (acct : String) (n : Nat)
    (total : ℚ) (byType : List (String × Nat)) (b : BedrockOutcome) :
    pyGet "recommendation.totalCount"
      (enrichSummary (recSummaryBase cfg acct n total byType) b)
      = some (.int n) := by
  rw [pyGet_enrichSummary _ b _ (by decide)]
  rfl

theorem findSummary_run_rec (cfg : Config) (acct : String) (r : RecRecord)
    (rest : List RecRecord) (b : BedrockOutcome) :
    findSummary (run_recommendation_workflow cfg acct (r :: rest) b)
      = some (enrichSummary (recSummaryBase cfg acct (r :: rest).length
          ((r :: rest).foldl (processRec acct) ⟨0, [], []⟩).total
          ((r :: rest).foldl (processRec acct) ⟨0, [], []⟩).byType) b) := by
  rw [run_rec_ok]
  apply findSummary_details_append
  · intro ev hev
    exact (foldRec_events_detail acct (r :: rest) ⟨0, [], []⟩
      (by intro ev2 hev2; simp at hev2) ev hev).2
  · exact isSummaryEv_recSummary cfg acct _ _ _ b

/-- C6 as amended: a record whose `estimatedMonthlySavings` is unparsable
is skipped entirely (no detail event, no contribution to the savings sum or
the per-type counts); a record whose `estimatedMonthlySavings` parses but
whose `estimatedSavingsPercentage` is unparsable emits no detail event but —
because the exception fires after `total_savings` and the count were already
updated — still contributes its savings to the sum and increments its
resource type's count; processing always continues over the remaining
records. -/
theorem rec_malformed_amended (cfg : Config) (acct : String) (recs : List RecRecord)
    (b : BedrockOutcome) (hne : recs ≠ []) :
    detailEvents (run_recommendation_workflow cfg acct recs b)
      = (recs.filter (fun r => (parseNum r.estimatedMonthlySavings).isSome
          ∧ (parseNum r.estimatedSavingsPercentage).isSome)).map
          (fun r => recDetailEvent acct r ((parseNum r.estimatedMonthlySavings).getD 0)
            ((parseNum r.estimatedSavingsPercentage).getD 0)) ∧
    summaryField "cost.totalEstimatedSavings" (run_recommendation_workflow cfg acct recs b)
      = some (.num ((recs.map
          (fun r => (parseNum r.estimatedMonthlySavings).getD 0)).sum)) ∧
    summaryField "recommendation.countByType" (run_recommendation_workflow cfg acct recs b)
      = some (.str (dumpsCounts (recs.foldl (fun m r =>
          if (parseNum r.estimatedMonthlySavings).isSome then bumpCount m r.resourceType
          else m) []))) := by
  cases recs with
  | nil => exact absurd rfl hne
  | cons r rest =>
    obtain ⟨h1, h2, h3⟩ := foldRec_state acct (r :: rest) ⟨0, [], []⟩
    have hdet := foldRec_events_detail acct (r :: rest) ⟨0, [], []⟩
      (by intro ev2 hev2; simp at hev2)
    refine ⟨?_, ?_, ?_⟩
    · rw [run_rec_ok]
      unfold detailEvents
      rw [List.filter_append]
      have hkeep : (((r :: rest).foldl (processRec acct) ⟨0, [], []⟩).events).filter
          isDetailEv = ((r :: rest).foldl (processRec acct) ⟨0, [], []⟩).events := by
        rw [List.filter_eq_self]
        intro ev hev
        exact (hdet ev hev).1
      have hdrop : [enrichSummary (recSummaryBase cfg acct (r :: rest).length
            ((r :: rest).foldl (processRec acct) ⟨0, [], []⟩).total
            ((r :: rest).foldl (processRec acct) ⟨0, [], []⟩).byType) b].filter
          isDetailEv = [] := by
        simp [List.filter, isDetailEv_recSummary]
      rw [hkeep, hdrop, List.append_nil, h3]
      simp
    · unfold summaryField
      rw [findSummary_run_rec]
      simp only [Option.bind]
      rw [totalSavings_recSummary, h1]
      simp
    · unfold summaryField
      rw [findSummary_run_rec]
      simp only [Option.bind]
      rw [countByType_recSummary, h2]

/-- One malformed recommendation: savings parse to 5 USD but the
percentage field is unparsable (`float` raises mid-way through the detail
event literal). -/
def badRec : RecRecord :=
  ⟨.parsable 5, .unparsable, "EbsVolume", "", "", "", "", "", "", "", "", ""⟩

/-- Counterexample to C6 as stated: for `badRec` (unparsable
`estimatedSavingsPercentage`) no detail event is emitted — but contrary to
the claim the record is NOT without effect on the summary: the running sum
of estimated monthly savings includes its 5 USD (the claim requires 0) and
the per-resource-type counts include its type (the claim requires an empty
count dict). -/
theorem rec_malformed_counterexample :
    detailEvents (run_recommendation_workflow exCfg "123456789012" [badRec]
      (.callError "x")) = [] ∧
    summaryField "cost.totalEstimatedSavings"
      (run_recommendation_workflow exCfg "123456789012" [badRec] (.callError "x"))
      = some (.num 5) ∧
    summaryField "recommendation.countByType"
      (run_recommendation_workflow exCfg "123456789012" [badRec] (.callError "x"))
      = some (.str "\x7b\"EbsVolume\": 1\x7d") ∧
    some (PyVal.num 5) ≠ some (PyVal.num 0) := by
  obtain ⟨h1, h2, h3⟩ := foldRec_state "123456789012" [badRec] ⟨0, [], []⟩
  refine ⟨by decide, ?_, ?_, by simp⟩
  · unfold summaryField
    rw [findSummary_run_rec exCfg "123456789012" badRec [] (.callError "x")]
    simp only [Option.bind]
    rw [totalSavings_recSummary, h1]
    norm_num [badRec, parseNum]
  · unfold summaryField
    rw [findSummary_run_rec exCfg "123456789012" badRec [] (.callError "x")]
    simp only [Option.bind]
    rw [countByType_recSummary, h2]
    decide

/-- A well-formed recommendation worth 2 USD. -/
def goodRec : RecRecord :=
  ⟨.parsable 2, .parsable 10, "Ec2Instance", "", "", "", "", "", "", "", "", ""⟩

/-- Concrete instantiation of `rec_malformed_amended`: one good and one
malformed record; the sum counts both (2 + 5). -/
theorem rec_malformed_amended_witness :
    summaryField "cost.totalEstimatedSavings"
      (run_recommendation_workflow exCfg "123456789012" [goodRec, badRec]
        (.callError "x"))
      = some (.num 7) := by
  have h := (rec_malformed_amended exCfg "123456789012" [goodRec, badRec]
    (.callError "x") (by simp)).2.1
  rw [h]
  norm_num [goodRec, badRec, parseNum]

/-- C10: `recommendation.totalCount` equals the number of fetched records,
including those later skipped for malformed numeric fields; the number of
emitted detail records never exceeds it, and for `badRec` it is strictly
smaller (1 fetched, 0 details). -/
theorem rec_total_count_spec :
    (∀ (cfg : Config) (acct : String) (recs : List RecRecord) (b : BedrockOutcome),
      recs ≠ [] →
      summaryField "recommendation.totalCount"
        (run_recommendation_workflow cfg acct recs b) = some (.int recs.length) ∧
      (detailEvents (run_recommendation_workflow cfg acct recs b)).length
        ≤ recs.length) ∧
    (summaryField "recommendation.totalCount"
        (run_recommendation_workflow exCfg "123456789012" [badRec] (.callError "x"))
        = some (.int 1) ∧
      (detailEvents (run_recommendation_workflow exCfg "123456789012" [badRec]
        (.callError "x"))).length = 0) := by
  constructor
  · intro cfg acct recs b hne
    cases recs with
    | nil => exact absurd rfl hne
    | cons r rest =>
      obtain ⟨h1, h2, h3⟩ := foldRec_state acct (r :: rest) ⟨0, [], []⟩
      have hdet := foldRec_events_detail acct (r :: rest) ⟨0, [], []⟩
        (by intro ev2 hev2; simp at hev2)
      constructor
      · unfold summaryField
        rw [findSummary_run_rec]
        simp only [Option.bind]
        rw [totalCount_recSummary]
      · rw [run_rec_ok]
        unfold detailEvents
        rw [List.filter_append]
        have hkeep : (((r :: rest).foldl (processRec acct) ⟨0, [], []⟩).events).filter
            isDetailEv = ((r :: rest).foldl (processRec acct) ⟨0, [], []⟩).events := by
          rw [List.filter_eq_self]
          intro ev hev
          exact (hdet ev hev).1
        have hdrop : [enrichSummary (recSummaryBase cfg acct (r :: rest).length
              ((r :: rest).foldl (processRec acct) ⟨0, [], []⟩).total
              ((r :: rest).foldl (processRec acct) ⟨0, [], []⟩).byType) b].filter
            isDetailEv = [] := by
          simp [List.filter, isDetailEv_recSummary]
        rw [hkeep, hdrop, List.append_nil, h3]
        simp only [List.nil_append, List.length_map]
        exact le_trans (List.length_filter_le _ _) (le_refl _)
  · constructor
    · decide
    · decide

/-- Concrete instantiation of `rec_total_count_spec`'s universal part. -/
theorem rec_total_count_spec_witness :
    summaryField "recommendation.totalCount"
      (run_recommendation_workflow exCfg "123456789012" [goodRec] (.callError "x"))
      = some (.int 1) := by
  exact (rec_total_count_spec.1 exCfg "123456789012" [goodRec] (.callError "x")
    (by simp)).1
